import Mathlib

/-!
Shallow embedding of the person CRUD subsystem of the repository
(`app/routers/person.py`, `app/schemas.py`), together with the validation
performed by the schema layer and a small operational model of the store.

Timestamps and calendar dates are modelled as `Nat`; the store keeps a
logical clock `now` that is used wherever the code calls `datetime.utcnow()`
or the database fills a `created_at` / `updated_at` column.  Successful
responses are `Except.ok` (201 for create, 200 otherwise); every raised
`HTTPException` and every validation rejection is `Except.error` with its
status code and detail string.
-/

deriving instance DecidableEq for Except

namespace Holocron

/-- Whitespace stripping at both ends, the effect of pydantic's
`StringConstraints(strip_whitespace=True)` (Python `str.strip()`). -/
def pyStrip (s : String) : String :=
  String.mk (((s.data.dropWhile Char.isWhitespace).reverse.dropWhile Char.isWhitespace).reverse)

/-- ASCII lowercasing, used to model the case-insensitivity of SQL
`ILIKE`. -/
def lowerStr (s : String) : String :=
  String.mk (s.data.map Char.toLower)

/-- An HTTP error response: status code plus detail message
(`HTTPException(status_code=..., detail=...)` in the code; 422 is the
framework's validation error, 500 an unhandled server crash). -/
structure HttpError where
  status : Nat
  detail : String
deriving DecidableEq, Repr

/-- `app.models.Person`: base person row.  `type` is "natural" or
"juridical" for rows created through the API; `deleted_at` is the
soft-delete marker. -/
structure Person where
  id : Nat
  type : String
  active : Bool
  created_at : Nat
  updated_at : Nat
  deleted_at : Option Nat
deriving DecidableEq, Repr

/-- `app.models.NaturalPersonDetails` row.  `full_name` is stored: the
database generates it at insert time (the model file is not part of the
sources; see `mkFullName`). -/
structure NaturalPersonDetails where
  person_id : Nat
  curp : String
  rfc : String
  name : String
  first_last_name : String
  second_last_name : Option String
  date_of_birth : Option Nat
  created_at : Nat
  full_name : String
deriving DecidableEq, Repr

/-- `app.models.JuridicalPersonDetails` row. -/
structure JuridicalPersonDetails where
  person_id : Nat
  rfc : String
  legal_name : String
  incorporation_date : Option Nat
  created_at : Nat
deriving DecidableEq, Repr

/-- The relational store: the three tables, the surrogate-key sequence for
`person.id`, and the logical clock. -/
structure DB where
  persons : List Person
  natural_person_details : List NaturalPersonDetails
  juridical_person_details : List JuridicalPersonDetails
  nextId : Nat
  now : Nat
deriving DecidableEq, Repr

/-- The empty store. -/
def DB.empty : DB := ⟨[], [], [], 1, 1⟩

/-- `db.query(NaturalPersonDetails).filter_by(person_id=pid).first()`. -/
def findNaturalDetails (db : DB) (pid : Nat) : Option NaturalPersonDetails :=
  db.natural_person_details.find? (fun d => d.person_id == pid)

/-- `db.query(JuridicalPersonDetails).filter_by(person_id=pid).first()`. -/
def findJuridicalDetails (db : DB) (pid : Nat) : Option JuridicalPersonDetails :=
  db.juridical_person_details.find? (fun d => d.person_id == pid)

/-- Modelled from the spec: the database-generated `full_name` column of
`natural_person_details` (the SQLAlchemy model file `app/models.py` is not
among the sources).  Spec §3 describes it as "a derived full_name (computed
by the persistence layer, not supplied by the caller)"; the repository's
test expects `"JOHN DOE SMITH"` for name "John", first last name "Doe",
second last name "Smith", i.e. the upper-cased space-joined name parts. -/
def mkFullName (name first_last_name : String) (second_last_name : Option String) : String :=
  String.mk ((name.data ++ (' ' :: first_last_name.data) ++
    (match second_last_name with
     | some s => ' ' :: s.data
     | none => [])).map Char.toUpper)

/- ### Validated request payloads (output of the schema layer) -/

/-- `schemas.NaturalPersonDetailsBase` after validation: all strings are
already whitespace-stripped by `StringConstraints(strip_whitespace=True)`. -/
structure NaturalPersonDetailsBase where
  curp : String
  rfc : String
  name : String
  first_last_name : String
  second_last_name : Option String
  date_of_birth : Option Nat
deriving DecidableEq, Repr

/-- `schemas.JuridicalPersonDetailsBase` after validation. -/
structure JuridicalPersonDetailsBase where
  rfc : String
  legal_name : String
  incorporation_date : Option Nat
deriving DecidableEq, Repr

/-- The `details` member of a create payload: one of the two schema shapes. -/
inductive CreateDetails where
  | natural (d : NaturalPersonDetailsBase)
  | juridical (d : JuridicalPersonDetailsBase)
deriving DecidableEq, Repr

/-- A `schemas.PersonCreate` value as the handler sees it: `type` is a
plain string field (the handler re-branches on it), `active` defaulted to
`True` when omitted, `details` one of the two detail shapes. -/
structure PersonCreate where
  type : String
  active : Bool
  details : CreateDetails
deriving DecidableEq, Repr

/- ### Raw (pre-validation) payloads and the schema layer -/

/-- Raw natural-details JSON body, before pydantic runs. -/
structure RawNaturalDetails where
  curp : String
  rfc : String
  name : String
  first_last_name : String
  second_last_name : Option String
  date_of_birth : Option Nat
deriving DecidableEq, Repr

/-- Raw juridical-details JSON body, before pydantic runs. -/
structure RawJuridicalDetails where
  rfc : String
  legal_name : String
  incorporation_date : Option Nat
deriving DecidableEq, Repr

/-- The raw `details` object, tagged by which field set it carries. -/
inductive RawDetails where
  | natural (d : RawNaturalDetails)
  | juridical (d : RawJuridicalDetails)
deriving DecidableEq, Repr

/-- A raw create request body.  `active = none` means the field was omitted
(pydantic then applies the declared default `True`). -/
structure RawCreate where
  type : String
  active : Option Bool
  details : RawDetails
deriving DecidableEq, Repr

/-- Validation of `NaturalPersonDetailsBase`: strip whitespace, then
`curp` exactly 18 chars, `rfc` 12–13 chars, `name`/`first_last_name` at
most 100 chars, optional `second_last_name` at most 100 chars. -/
def validateNaturalDetails (r : RawNaturalDetails) : Option NaturalPersonDetailsBase :=
  let curp := pyStrip r.curp
  let rfc := pyStrip r.rfc
  let name := pyStrip r.name
  let fln := pyStrip r.first_last_name
  let sln := r.second_last_name.map pyStrip
  if curp.length == 18 && (12 ≤ rfc.length && rfc.length ≤ 13)
      && name.length ≤ 100 && fln.length ≤ 100
      && (match sln with
          | some s => s.length ≤ 100
          | none => true) then
    some ⟨curp, rfc, name, fln, sln, r.date_of_birth⟩
  else
    none

/-- Validation of `JuridicalPersonDetailsBase`: strip whitespace, then
`rfc` 12–13 chars, `legal_name` at most 200 chars. -/
def validateJuridicalDetails (r : RawJuridicalDetails) : Option JuridicalPersonDetailsBase :=
  let rfc := pyStrip r.rfc
  let legal := pyStrip r.legal_name
  if (12 ≤ rfc.length && rfc.length ≤ 13) && legal.length ≤ 200 then
    some ⟨rfc, legal, r.incorporation_date⟩
  else
    none

/-- Validation of the `PersonCreate` union: `PersonCreateNatural` requires
the stripped `type` to match `^(natural)$` and natural-shaped details,
`PersonCreateJuridical` requires `^(juridical)$` and juridical-shaped
details; any other combination is rejected (422). -/
def validateCreate (r : RawCreate) : Option PersonCreate :=
  match r.details with
  | .natural d =>
      if pyStrip r.type == "natural" then
        (validateNaturalDetails d).map (fun v => ⟨"natural", r.active.getD true, .natural v⟩)
      else
        none
  | .juridical d =>
      if pyStrip r.type == "juridical" then
        (validateJuridicalDetails d).map (fun v => ⟨"juridical", r.active.getD true, .juridical v⟩)
      else
        none

/- ### Response schemas -/

/-- `schemas.NaturalPersonDetailsRead`. -/
structure NaturalPersonDetailsRead where
  person_id : Nat
  curp : String
  rfc : String
  name : String
  first_last_name : String
  second_last_name : Option String
  date_of_birth : Option Nat
  created_at : Nat
  full_name : String
deriving DecidableEq, Repr

/-- `schemas.JuridicalPersonDetailsRead`. -/
structure JuridicalPersonDetailsRead where
  person_id : Nat
  rfc : String
  legal_name : String
  incorporation_date : Option Nat
  created_at : Nat
deriving DecidableEq, Repr

/-- The nested `details` of a response, tagging which variant was built. -/
inductive DetailsRead where
  | natural (d : NaturalPersonDetailsRead)
  | juridical (d : JuridicalPersonDetailsRead)
deriving DecidableEq, Repr

/-- `schemas.PersonRead` (the union of `PersonReadNatural` and
`PersonReadJuridical`): base fields plus nested details. -/
structure PersonRead where
  id : Nat
  type : String
  active : Bool
  created_at : Nat
  updated_at : Nat
  deleted_at : Option Nat
  details : DetailsRead
deriving DecidableEq, Repr

/-- `schemas.PersonList`. -/
structure PersonList where
  total : Nat
  items : List PersonRead
deriving DecidableEq, Repr

/- ### The create handler (`create_person`, person.py lines 27–107) -/

/-- Builds the natural response variant from a person row and its details
row, exactly as the assembly code copies fields. -/
def assembleNatural (p : Person) (d : NaturalPersonDetails) : PersonRead :=
  ⟨p.id, p.type, p.active, p.created_at, p.updated_at, p.deleted_at,
    .natural ⟨d.person_id, d.curp, d.rfc, d.name, d.first_last_name,
      d.second_last_name, d.date_of_birth, d.created_at, d.full_name⟩⟩

/-- Builds the juridical response variant from a person row and its
details row. -/
def assembleJuridical (p : Person) (d : JuridicalPersonDetails) : PersonRead :=
  ⟨p.id, p.type, p.active, p.created_at, p.updated_at, p.deleted_at,
    .juridical ⟨d.person_id, d.rfc, d.legal_name, d.incorporation_date, d.created_at⟩⟩

/-- `create_person` (person.py 28–107).  The base `Person` row is inserted
and committed first; then the handler branches on `person.type`:
"natural"/"juridical" insert the matching details row (the database filling
`full_name` for natural rows), any other type raises
`HTTPException(400, "Invalid person type")` with the base row already
committed and left in place.  On success the response is assembled by
re-querying the details row just written.  Accessing natural fields of a
juridical details object (or the re-query finding no row) is a Python
`AttributeError`, modelled as a 500. -/
def create_person (person : PersonCreate) (db : DB) : Except HttpError PersonRead × DB :=
  let db_person : Person :=
    ⟨db.nextId, person.type, person.active, db.now, db.now, none⟩
  let db1 : DB := { db with persons := db.persons ++ [db_person], nextId := db.nextId + 1 }
  if person.type == "natural" then
    match person.details with
    | .natural d =>
        let row : NaturalPersonDetails :=
          ⟨db_person.id, d.curp, d.rfc, d.name, d.first_last_name,
            d.second_last_name, d.date_of_birth, db1.now,
            mkFullName d.name d.first_last_name d.second_last_name⟩
        let db2 := { db1 with natural_person_details := db1.natural_person_details ++ [row] }
        match findNaturalDetails db2 db_person.id with
        | some found => (.ok (assembleNatural db_person found), db2)
        | none => (.error ⟨500, "Internal Server Error"⟩, db2)
    | .juridical _ => (.error ⟨500, "Internal Server Error"⟩, db1)
  else if person.type == "juridical" then
    match person.details with
    | .juridical d =>
        let row : JuridicalPersonDetails :=
          ⟨db_person.id, d.rfc, d.legal_name, d.incorporation_date, db1.now⟩
        let db2 := { db1 with juridical_person_details := db1.juridical_person_details ++ [row] }
        match findJuridicalDetails db2 db_person.id with
        | some found => (.ok (assembleJuridical db_person found), db2)
        | none => (.error ⟨500, "Internal Server Error"⟩, db2)
    | .natural _ => (.error ⟨500, "Internal Server Error"⟩, db1)
  else
    (.error ⟨400, "Invalid person type"⟩, db1)

/-- The full request pipeline for `POST /persons/`: schema validation
first (a 422 client error touches the store in no way), then the handler. -/
def handleCreate (r : RawCreate) (db : DB) : Except HttpError PersonRead × DB :=
  match validateCreate r with
  | none => (.error ⟨422, "Unprocessable Entity"⟩, db)
  | some person => create_person person db

/- ### Listing (`list_persons`, person.py lines 110–184) -/

/-- `schemas.PersonFilter`: optional query params. -/
structure PersonFilter where
  type : Option String
  active : Option Bool
  name : Option String
deriving DecidableEq, Repr

/-- `schemas.Pagination` after validation: `skip ≥ 0`, `1 ≤ limit ≤ 100`. -/
structure Pagination where
  skip : Nat
  limit : Nat
deriving DecidableEq, Repr

/-- Raw pagination query params; `none` means omitted (defaults `skip=0`,
`limit=10` then apply). -/
structure RawPagination where
  skip : Option Int
  limit : Option Int
deriving DecidableEq, Repr

/-- Validation of `Pagination`: `skip` has `ge=0`, `limit` has
`ge=1, le=100`; out-of-range values are a 422. -/
def validatePagination (r : RawPagination) : Option Pagination :=
  let skip := r.skip.getD 0
  let limit := r.limit.getD 10
  if 0 ≤ skip && (1 ≤ limit && limit ≤ 100) then
    some ⟨skip.toNat, limit.toNat⟩
  else
    none

/-- Python truthiness of an optional string, as used by
`if filter.type:` and `if filter.name:`: `None` and the empty string are
falsy, so an empty-string filter is skipped. -/
def truthy : Option String → Bool
  | some s => !s.data.isEmpty
  | none => false

/-- Occurrence of `pat` at the head of `l`. -/
def charsMatchAt : List Char → List Char → Bool
  | [], _ => true
  | _ :: _, [] => false
  | c :: cs, d :: ds => c == d && charsMatchAt cs ds

/-- Occurrence of `pat` anywhere in `l`. -/
def charsOccur (pat : List Char) : List Char → Bool
  | [] => pat.isEmpty
  | c :: cs => charsMatchAt pat (c :: cs) || charsOccur pat cs

/-- `column ILIKE '%pat%'` for a wildcard-free `pat`: case-insensitive
substring containment. -/
def ilikeContains (s pat : String) : Bool :=
  charsOccur (lowerStr pat).data (lowerStr s).data

/-- The person-level WHERE predicates of the listing query:
`Person.deleted_at IS NULL`, plus exact match on `type` when the filter is
truthy and on `active` when it `is not None`. -/
def basePasses (f : PersonFilter) (p : Person) : Bool :=
  p.deleted_at.isNone
    && (if truthy f.type then p.type == f.type.getD "" else true)
    && (match f.active with
        | some a => p.active == a
        | none => true)

/-- A row of the name-filtered query.  The query left-outer-joins
`natural_person_details` on `person_id = person.id`; the OR predicate also
references `juridical_person_details`, which is not joined, so the SQL
engine adds it to the FROM list as an implicit cross join: every
person/natural-details row is paired with every juridical details row. -/
def joinedRows (db : DB) : List (Person × Option NaturalPersonDetails × JuridicalPersonDetails) :=
  db.persons.flatMap (fun p =>
    db.juridical_person_details.map (fun jd => (p, findNaturalDetails db p.id, jd)))

/-- The OR name predicate over one joined row; a NULL natural-details side
(`nd = none`) makes its ILIKE comparison SQL-NULL, which the WHERE clause
treats as false. -/
def namePasses (n : String) (nd : Option NaturalPersonDetails)
    (jd : JuridicalPersonDetails) : Bool :=
  (match nd with
   | some d => ilikeContains d.name n
   | none => false)
  || ilikeContains jd.legal_name n

/-- All rows of the name-filtered query after the WHERE clause. -/
def filteredJoinedRows (db : DB) (f : PersonFilter) (n : String) :
    List (Person × Option NaturalPersonDetails × JuridicalPersonDetails) :=
  (joinedRows db).filter (fun r => basePasses f r.1 && namePasses n r.2.1 r.2.2)

/-- Comparison on person id, the `ORDER BY person.id` key. -/
def personLe (a b : Person) : Prop := a.id ≤ b.id

instance : DecidableRel personLe := fun a b => Nat.decLe a.id b.id

instance : IsTotal Person personLe := ⟨fun a b => Nat.le_total a.id b.id⟩

instance : IsTrans Person personLe := ⟨fun _ _ _ => Nat.le_trans⟩

/-- `ORDER BY person.id` over a list of persons (a stable sort). -/
def orderById (l : List Person) : List Person :=
  l.insertionSort personLe

/-- Comparison on the person id of a joined row. -/
def rowLe (a b : Person × Option NaturalPersonDetails × JuridicalPersonDetails) : Prop :=
  a.1.id ≤ b.1.id

instance : DecidableRel rowLe := fun a b => Nat.decLe a.1.id b.1.id

instance : IsTotal (Person × Option NaturalPersonDetails × JuridicalPersonDetails) rowLe :=
  ⟨fun a b => Nat.le_total a.1.id b.1.id⟩

instance : IsTrans (Person × Option NaturalPersonDetails × JuridicalPersonDetails) rowLe :=
  ⟨fun _ _ _ => Nat.le_trans⟩

/-- `ORDER BY person.id` over joined rows (stable; rows sharing a person
keep the join's nested-loop order). -/
def orderRowsById (l : List (Person × Option NaturalPersonDetails × JuridicalPersonDetails)) :
    List (Person × Option NaturalPersonDetails × JuridicalPersonDetails) :=
  l.insertionSort rowLe

/-- The per-row response assembly of the listing loop (person.py 139–182):
`type == "natural"` fetches the natural details row, anything else the
juridical one; a missing row crashes the handler (`none`). -/
def assembleRow (db : DB) (p : Person) : Option PersonRead :=
  if p.type == "natural" then
    (findNaturalDetails db p.id).map (assembleNatural p)
  else
    (findJuridicalDetails db p.id).map (assembleJuridical p)

/-- Assembly of the whole page, one extra details query per row; `none` as
soon as one row has no details (a Python `AttributeError`, i.e. a 500). -/
def assemblePage (db : DB) : List Person → Option (List PersonRead)
  | [] => some []
  | p :: ps =>
      match assembleRow db p, assemblePage db ps with
      | some x, some xs => some (x :: xs)
      | _, _ => none

/-- Entity deduplication by primary key (first occurrence kept), the
uniquing legacy SQLAlchemy `Query.all()` applies to full-entity rows after
the database has applied OFFSET/LIMIT to the raw rows: duplicate join rows
map to the same identity-map object and are returned once. -/
def dedupByIdAux (seen : List Nat) : List Person → List Person
  | [] => []
  | p :: ps =>
      if seen.contains p.id then dedupByIdAux seen ps
      else p :: dedupByIdAux (p.id :: seen) ps

/-- `Query.all()` uniquing over a fetched page of person rows. -/
def dedupById (l : List Person) : List Person :=
  dedupByIdAux [] l

/-- `list_persons` (person.py 111–184): filter non-deleted persons, apply
truthy `type`, non-None `active`, and truthy `name` filters; `total` is
`query.count()` before pagination (a row count, no uniquing), the page is
`ORDER BY id OFFSET skip LIMIT limit` deduplicated by entity identity on
`.all()`, and each returned row is re-assembled with its details.  The
branch without a name filter has no join, so its rows are distinct
primary keys and uniquing is a no-op there. -/
def list_persons (f : PersonFilter) (pg : Pagination) (db : DB) :
    Except HttpError PersonList :=
  if truthy f.name then
    let rows := filteredJoinedRows db f (f.name.getD "")
    let total := rows.length
    let page := ((orderRowsById rows).drop pg.skip).take pg.limit
    match assemblePage db (dedupById (page.map (fun r => r.1))) with
    | some items => .ok ⟨total, items⟩
    | none => .error ⟨500, "Internal Server Error"⟩
  else
    let matched := db.persons.filter (basePasses f)
    let total := matched.length
    let page := ((orderById matched).drop pg.skip).take pg.limit
    match assemblePage db page with
    | some items => .ok ⟨total, items⟩
    | none => .error ⟨500, "Internal Server Error"⟩

/-- The full request pipeline for `GET /persons/`: pagination validation
(422 on failure) then the handler.  The filter fields are unconstrained
strings/booleans.  Listing never writes to the store. -/
def handleList (f : PersonFilter) (r : RawPagination) (db : DB) :
    Except HttpError PersonList :=
  match validatePagination r with
  | none => .error ⟨422, "Unprocessable Entity"⟩
  | some pg => list_persons f pg db

/- ### Deletion (`delete_person`, person.py lines 188–239) -/

/-- The UPDATE performed by `person.deleted_at = datetime.utcnow();
db.commit()`: the first row with the given id and a NULL `deleted_at` (the
row `first()` returned) gets `deleted_at` set. -/
def markDeleted (pid now : Nat) : List Person → List Person
  | [] => []
  | p :: ps =>
      if p.id == pid && p.deleted_at.isNone then
        { p with deleted_at := some now } :: ps
      else
        p :: markDeleted pid now ps

/-- `delete_person` (person.py 188–239): look up a non-deleted person by
id; 404 "Person not found" if absent (store untouched); otherwise set
`deleted_at` to the current time, commit, and assemble the response from
the updated row and its details (missing details crash: 500). -/
def delete_person (pid : Nat) (db : DB) : Except HttpError PersonRead × DB :=
  match db.persons.find? (fun p => p.id == pid && p.deleted_at.isNone) with
  | none => (.error ⟨404, "Person not found"⟩, db)
  | some found =>
      let updated := { found with deleted_at := some db.now }
      let db1 := { db with persons := markDeleted pid db.now db.persons }
      match assembleRow db1 updated with
      | some resp => (.ok resp, db1)
      | none => (.error ⟨500, "Internal Server Error"⟩, db1)

/- ### Sequences of API operations -/

/-- One incoming API request. -/
inductive Op where
  | create (r : RawCreate)
  | list (f : PersonFilter) (r : RawPagination)
  | delete (pid : Nat)
deriving Repr

/-- The store after handling one request (listing reads only; the clock
ticks between requests). -/
def stepOp (db : DB) : Op → DB
  | .create r => { (handleCreate r db).2 with now := (handleCreate r db).2.now + 1 }
  | .list _ _ => { db with now := db.now + 1 }
  | .delete pid => { (delete_person pid db).2 with now := (delete_person pid db).2.now + 1 }

/-- The store after a sequence of requests. -/
def runOps (db : DB) (ops : List Op) : DB :=
  ops.foldl stepOp db

/- ### Concrete request payloads and stores used in the theorems below -/

/-- A well-formed raw natural-person create request (18-char curp,
12-char rfc) with the given first name. -/
def rawNat (name : String) : RawCreate :=
  ⟨"natural", some true, .natural ⟨"CURP12345678901234", "RFC123456789", name, "Doe", none, none⟩⟩

/-- A well-formed raw juridical-person create request with the given
legal name. -/
def rawJur (legal : String) : RawCreate :=
  ⟨"juridical", some true, .juridical ⟨"RFC987654321", legal, none⟩⟩

/-- Store holding one natural person whose name contains "Wonderland" and
one juridical person whose legal_name contains "Wonderland", built by
running the API from the empty store. -/
def wonderDB : DB :=
  runOps DB.empty [.create (rawNat "Alice Wonderland"), .create (rawJur "Wonderland LLC")]

/-- Store holding a single natural person whose name contains
"Wonderland" and no juridical rows at all. -/
def natOnlyDB : DB :=
  runOps DB.empty [.create (rawNat "Alice Wonderland")]

/-- Store with one matching natural person and two juridical persons whose
legal names both contain "Wonderland". -/
def threeDB : DB :=
  runOps DB.empty
    [.create (rawNat "Alice Wonderland"), .create (rawJur "Wonderland LLC"),
     .create (rawJur "Wonderland Inc")]

/-- Store with fifteen natural persons (ids 1–15). -/
def fifteenDB : DB :=
  runOps DB.empty (List.replicate 15 (Op.create (rawNat "Alice")))

/-- Store where person 1 (natural) has already been soft-deleted. -/
def deletedDB : DB :=
  runOps DB.empty [.create (rawNat "Alice Wonderland"), .delete 1]

/-- The response row for the natural person created by `rawNat "Alice"` as
person `i` at time `t`. -/
def aliceRead (i t : Nat) : PersonRead :=
  assembleNatural ⟨i, "natural", true, t, t, none⟩
    ⟨i, "CURP12345678901234", "RFC123456789", "Alice", "Doe", none, none, t,
      mkFullName "Alice" "Doe" none⟩

/-- Refinement comparison definition, written from the spec's words rather
than from the code: a person matches a name filter `n` when it is
non-deleted and its natural-person `name` or juridical-person `legal_name`
(looked up through its own foreign key) contains `n` case-insensitively. -/
def specNameMatches (db : DB) (n : String) (p : Person) : Bool :=
  p.deleted_at.isNone
    && ((match findNaturalDetails db p.id with
         | some d => ilikeContains d.name n
         | none => false)
        || (match findJuridicalDetails db p.id with
            | some d => ilikeContains d.legal_name n
            | none => false))

/- ### Helper lemmas -/

/-- Whatever branch `create_person` takes, the base person row is inserted
(and committed) first and never removed. -/
lemma create_person_persons (inp : PersonCreate) (db : DB) :
    (create_person inp db).2.persons =
      db.persons ++ [⟨db.nextId, inp.type, inp.active, db.now, db.now, none⟩] := by
  unfold create_person
  split
  · split
    · dsimp only
      split <;> rfl
    · rfl
  · split
    · split
      · dsimp only
        split <;> rfl
      · rfl
    · rfl

/-- On a successful create, the response's base fields are those of the
inserted person row. -/
lemma create_person_ok_resp {inp : PersonCreate} {db : DB} {resp : PersonRead} {db' : DB}
    (h : create_person inp db = (.ok resp, db')) :
    resp.id = db.nextId ∧ resp.type = inp.type ∧ resp.active = inp.active ∧
      resp.created_at = db.now ∧ resp.updated_at = db.now ∧ resp.deleted_at = none := by
  unfold create_person at h
  split at h
  · split at h
    · dsimp only at h
      split at h
      · injection h with h1 h2
        injection h1 with h3
        subst h3
        simp [assembleNatural]
      · injection h with h1 h2
        exact Except.noConfusion h1
    · injection h with h1 h2
      exact Except.noConfusion h1
  · split at h
    · split at h
      · dsimp only at h
        split at h
        · injection h with h1 h2
          injection h1 with h3
          subst h3
          simp [assembleJuridical]
        · injection h with h1 h2
          exact Except.noConfusion h1
      · injection h with h1 h2
        exact Except.noConfusion h1
    · injection h with h1 h2
      exact Except.noConfusion h1

/-- The `active` of a validated create payload is the raw field defaulted
to `true`. -/
lemma validateCreate_active {r : RawCreate} {inp : PersonCreate}
    (h : validateCreate r = some inp) : inp.active = r.active.getD true := by
  unfold validateCreate at h
  split at h <;> split at h <;> simp_all [Option.map_eq_some'] <;>
    (obtain ⟨v, hv, rfl⟩ := h; rfl)

/-- The `type` of a validated create payload is exactly one of the two
literal values enforced by the per-variant regex patterns. -/
lemma validateCreate_type {r : RawCreate} {inp : PersonCreate}
    (h : validateCreate r = some inp) : inp.type = "natural" ∨ inp.type = "juridical" := by
  unfold validateCreate at h
  split at h <;> split at h <;> simp_all [Option.map_eq_some']
  · obtain ⟨v, hv, rfl⟩ := h; left; rfl
  · obtain ⟨v, hv, rfl⟩ := h; right; rfl

/- ### Claims C2, C9, C10 -/

/-- A create whose payload type is one of the two recognized values can
never raise the 400 "Invalid person type" error. -/
lemma create_person_no_invalid_type {inp : PersonCreate} {db : DB}
    (htype : inp.type = "natural" ∨ inp.type = "juridical") :
    (create_person inp db).1 ≠ .error ⟨400, "Invalid person type"⟩ := by
  intro heq
  have h : create_person inp db = (.error ⟨400, "Invalid person type"⟩, (create_person inp db).2) :=
    Prod.ext heq rfl
  unfold create_person at h
  split at h
  · split at h
    · dsimp only at h
      split at h <;> simp_all [beq_iff_eq]
    · simp_all [beq_iff_eq]
  · split at h
    · split at h
      · dsimp only at h
        split at h <;> simp_all [beq_iff_eq]
      · simp_all [beq_iff_eq]
    · rcases htype with ht | ht <;> simp_all [beq_iff_eq]

/-- Claim C2: for every create payload whose type is neither "natural" nor
"juridical", `create_person` raises the 400 "Invalid person type" client
error, creates no detail row, and leaves the already-committed base person
row in place (no compensating rollback). -/
theorem claim_C2_invalid_type (person : PersonCreate) (db : DB)
    (h1 : person.type ≠ "natural") (h2 : person.type ≠ "juridical") :
    create_person person db =
      (.error ⟨400, "Invalid person type"⟩,
       { db with
          persons := db.persons ++ [⟨db.nextId, person.type, person.active, db.now, db.now, none⟩],
          nextId := db.nextId + 1 }) ∧
    (create_person person db).2.natural_person_details = db.natural_person_details ∧
    (create_person person db).2.juridical_person_details = db.juridical_person_details := by
  have hb1 : (person.type == "natural") = false := by simp [h1]
  have hb2 : (person.type == "juridical") = false := by simp [h2]
  unfold create_person
  simp [hb1, hb2]

/-- Witness for C2 at the concrete type "alien" on the empty store. -/
theorem claim_C2_witness :
    create_person ⟨"alien", true, .natural ⟨"CURP12345678901234", "RFC123456789", "X", "Y", none, none⟩⟩ DB.empty =
      (.error ⟨400, "Invalid person type"⟩,
       { DB.empty with persons := [⟨1, "alien", true, 1, 1, none⟩], nextId := 2 }) :=
  (claim_C2_invalid_type _ DB.empty (by decide) (by decide)).1

/-- Claim C9: every payload accepted by the `PersonCreate` union has type
exactly "natural" or "juridical", so the handler's "Invalid person type"
branch can never execute on a validated request. -/
theorem claim_C9_invalid_type_unreachable :
    (∀ r inp, validateCreate r = some inp → inp.type = "natural" ∨ inp.type = "juridical") ∧
    (∀ r db, (handleCreate r db).1 ≠ .error ⟨400, "Invalid person type"⟩) := by
  refine ⟨fun r inp h => validateCreate_type h, fun r db => ?_⟩
  unfold handleCreate
  cases hv : validateCreate r with
  | none => simp
  | some inp => exact create_person_no_invalid_type (validateCreate_type hv)

def inpAlice : PersonCreate :=
  ⟨"natural", true, .natural ⟨"CURP12345678901234", "RFC123456789", "Alice", "Doe", none, none⟩⟩

/-- Witness for C9 at a concrete validated natural-person payload. -/
theorem claim_C9_witness :
    (inpAlice.type = "natural" ∨ inpAlice.type = "juridical") ∧
    (handleCreate (rawNat "Alice") DB.empty).1 ≠ .error ⟨400, "Invalid person type"⟩ :=
  ⟨claim_C9_invalid_type_unreachable.1 (rawNat "Alice") inpAlice (by decide),
   claim_C9_invalid_type_unreachable.2 (rawNat "Alice") DB.empty⟩

/-- Claim C10: a create request omitting `active` is validated with
`active = true`, and the created person is both stored and returned with
`active = true`. -/
theorem claim_C10_default_active :
    ∀ (r : RawCreate) (inp : PersonCreate) (db : DB) (resp : PersonRead) (db' : DB),
      r.active = none → validateCreate r = some inp →
      create_person inp db = (.ok resp, db') →
      inp.active = true ∧ resp.active = true ∧
      (⟨db.nextId, inp.type, true, db.now, db.now, none⟩ : Person) ∈ db'.persons := by
  intro r inp db resp db' hn hv hc
  have ha : inp.active = true := by rw [validateCreate_active hv, hn]; rfl
  have hr := create_person_ok_resp hc
  have hp : db'.persons = db.persons ++ [⟨db.nextId, inp.type, inp.active, db.now, db.now, none⟩] := by
    have hgen := create_person_persons inp db
    rw [hc] at hgen
    exact hgen
  refine ⟨ha, ?_, ?_⟩
  · rw [hr.2.2.1, ha]
  · rw [hp, ha]
    simp

def rawAliceNoActive : RawCreate :=
  ⟨"natural", none, .natural ⟨"CURP12345678901234", "RFC123456789", "Alice", "Doe", none, none⟩⟩

/-- Witness for C10: omitted `active` on the empty store. -/
theorem claim_C10_witness :
    inpAlice.active = true ∧ (aliceRead 1 1).active = true ∧
      (⟨1, "natural", true, 1, 1, none⟩ : Person) ∈
        (⟨[⟨1, "natural", true, 1, 1, none⟩],
          [⟨1, "CURP12345678901234", "RFC123456789", "Alice", "Doe", none, none, 1,
            mkFullName "Alice" "Doe" none⟩],
          [], 2, 1⟩ : DB).persons :=
  claim_C10_default_active rawAliceNoActive inpAlice DB.empty (aliceRead 1 1) _ rfl (by decide) (by decide)

/- ### Claims C3 and C8: soft delete and its one-way transition -/

/-- Well-formed store: every person row has the detail row that the
response-assembly code will query for it. -/
def WFdb (db : DB) : Prop :=
  ∀ p ∈ db.persons,
    (p.type = "natural" → (findNaturalDetails db p.id).isSome) ∧
    (p.type ≠ "natural" → (findJuridicalDetails db p.id).isSome)

instance : DecidablePred WFdb := fun db => by
  unfold WFdb
  infer_instance

/-- Assembly of a natural person succeeds when its details row exists. -/
lemma assembleRow_of_natural {db : DB} {p : Person} {d : NaturalPersonDetails}
    (ht : p.type = "natural") (hd : findNaturalDetails db p.id = some d) :
    assembleRow db p = some (assembleNatural p d) := by
  simp [assembleRow, ht, hd]

/-- Assembly of a non-natural person succeeds when its juridical details
row exists. -/
lemma assembleRow_of_other {db : DB} {p : Person} {d : JuridicalPersonDetails}
    (ht : p.type ≠ "natural") (hd : findJuridicalDetails db p.id = some d) :
    assembleRow db p = some (assembleJuridical p d) := by
  simp [assembleRow, beq_iff_eq, ht, hd]

/-- The row the soft-delete UPDATE modified is in the updated table with
its `deleted_at` set. -/
lemma markDeleted_mem {l : List Person} {pid now : Nat} {q : Person}
    (h : l.find? (fun p => p.id == pid && p.deleted_at.isNone) = some q) :
    { q with deleted_at := some now } ∈ markDeleted pid now l := by
  induction l with
  | nil => simp at h
  | cons a l ih =>
      rw [List.find?_cons] at h
      unfold markDeleted
      by_cases ha : (a.id == pid && a.deleted_at.isNone) = true
      · simp only [ha] at h ⊢
        injection h with h1
        subst h1
        simp
      · simp only [Bool.not_eq_true] at ha
        simp only [ha] at h ⊢
        simp [ih h]

/-- Rows whose `deleted_at` is already set are untouched by the
soft-delete UPDATE. -/
lemma markDeleted_preserves_deleted {l : List Person} {pid now : Nat} {p : Person}
    (hmem : p ∈ l) (hdel : p.deleted_at ≠ none) : p ∈ markDeleted pid now l := by
  induction l with
  | nil => simp at hmem
  | cons a l ih =>
      unfold markDeleted
      rcases List.mem_cons.1 hmem with rfl | hmem'
      · have hfalse : (p.id == pid && p.deleted_at.isNone) = false := by
          cases hd : p.deleted_at with
          | none => exact absurd hd hdel
          | some t => simp [hd]
        simp [hfalse]
      · by_cases ha : (a.id == pid && a.deleted_at.isNone) = true
        · simp [ha, List.mem_cons, hmem']
        · simp only [Bool.not_eq_true] at ha
          simp [ha, List.mem_cons, ih hmem']

/-- Claim C3: deleting an existing, not-yet-deleted person sets its
`deleted_at` to a non-null timestamp and returns the updated record with
its details (200); deleting an id that never existed or an already-deleted
person returns 404 "Person not found" and leaves the store unchanged. -/
theorem claim_C3_delete (pid : Nat) (db : DB) (hwf : WFdb db) :
    ((∃ p ∈ db.persons, p.id = pid ∧ p.deleted_at = none) →
      ∃ resp db', delete_person pid db = (.ok resp, db') ∧
        resp.id = pid ∧ resp.deleted_at = some db.now ∧
        db'.natural_person_details = db.natural_person_details ∧
        db'.juridical_person_details = db.juridical_person_details ∧
        ∃ q ∈ db'.persons, q.id = pid ∧ q.deleted_at = some db.now) ∧
    ((∀ p ∈ db.persons, ¬(p.id = pid ∧ p.deleted_at = none)) →
      delete_person pid db = (.error ⟨404, "Person not found"⟩, db)) := by
  constructor
  · rintro ⟨p, hp, hid, hdel⟩
    have hsome : (db.persons.find? (fun q => q.id == pid && q.deleted_at.isNone)).isSome := by
      rw [List.find?_isSome]
      exact ⟨p, hp, by simp [hid, hdel]⟩
    obtain ⟨q, hq⟩ := Option.isSome_iff_exists.1 hsome
    have hqpred := List.find?_some hq
    have hqmem := List.mem_of_find?_eq_some hq
    simp only [Bool.and_eq_true, beq_iff_eq, Option.isNone_iff_eq_none] at hqpred
    obtain ⟨hqid, hqdel⟩ := hqpred
    have hmark := @markDeleted_mem _ _ db.now _ hq
    unfold delete_person
    rw [hq]
    dsimp only
    by_cases ht : q.type = "natural"
    · obtain ⟨d, hd⟩ := Option.isSome_iff_exists.1 (hwf q hqmem |>.1 ht)
      have har : assembleRow { db with persons := markDeleted pid db.now db.persons }
          { q with deleted_at := some db.now } = some (assembleNatural { q with deleted_at := some db.now } d) :=
        assembleRow_of_natural ht hd
      rw [har]
      exact ⟨_, _, rfl, by simp [assembleNatural, hqid], by simp [assembleNatural],
        rfl, rfl, ⟨_, hmark, by simp [hqid], rfl⟩⟩
    · obtain ⟨d, hd⟩ := Option.isSome_iff_exists.1 (hwf q hqmem |>.2 ht)
      have har : assembleRow { db with persons := markDeleted pid db.now db.persons }
          { q with deleted_at := some db.now } = some (assembleJuridical { q with deleted_at := some db.now } d) :=
        assembleRow_of_other ht hd
      rw [har]
      exact ⟨_, _, rfl, by simp [assembleJuridical, hqid], by simp [assembleJuridical],
        rfl, rfl, ⟨_, hmark, by simp [hqid], rfl⟩⟩
  · intro hnone
    have hfind : db.persons.find? (fun q => q.id == pid && q.deleted_at.isNone) = none := by
      rw [List.find?_eq_none]
      intro x hx
      have := hnone x hx
      simp only [Bool.and_eq_true, beq_iff_eq, Option.isNone_iff_eq_none]
      tauto
    unfold delete_person
    rw [hfind]

/-- Witness for C3 at the concrete store with two live persons. -/
theorem claim_C3_witness :
    delete_person 99 wonderDB = (.error ⟨404, "Person not found"⟩, wonderDB) :=
  (claim_C3_delete 99 wonderDB (by decide)).2 (by decide)

/-- The store's person table after a delete request: unchanged on 404, the
soft-delete UPDATE otherwise. -/
lemma delete_person_persons (pid : Nat) (db : DB) :
    (delete_person pid db).2.persons = db.persons ∨
    (delete_person pid db).2.persons = markDeleted pid db.now db.persons := by
  unfold delete_person
  split
  · exact Or.inl rfl
  · dsimp only
    split
    · exact Or.inr rfl
    · exact Or.inr rfl

/-- The person table after a create request: unchanged when validation
fails, one appended row otherwise. -/
lemma handleCreate_persons (r : RawCreate) (db : DB) :
    (handleCreate r db).2.persons = db.persons ∨
    ∃ x, (handleCreate r db).2.persons = db.persons ++ [x] := by
  unfold handleCreate
  cases hv : validateCreate r with
  | none => exact Or.inl rfl
  | some inp => exact Or.inr ⟨_, create_person_persons inp db⟩

/-- One API request preserves every already-deleted person row verbatim. -/
lemma stepOp_preserves_deleted (db : DB) (op : Op) {p : Person}
    (hp : p ∈ db.persons) (hdel : p.deleted_at ≠ none) : p ∈ (stepOp db op).persons := by
  cases op with
  | create r =>
      show p ∈ (handleCreate r db).2.persons
      rcases handleCreate_persons r db with h | ⟨x, h⟩ <;> rw [h]
      · exact hp
      · exact List.mem_append_left _ hp
  | list f r => exact hp
  | delete pid =>
      show p ∈ (delete_person pid db).2.persons
      rcases delete_person_persons pid db with h | h <;> rw [h]
      · exact hp
      · exact markDeleted_preserves_deleted hp hdel

/-- Claim C8: across every sequence of create/list/delete requests, a
person row whose `deleted_at` is non-null survives verbatim — no request
resets the timestamp or removes the row. -/
theorem claim_C8_soft_delete_oneway :
    ∀ (ops : List Op) (db : DB) (p : Person),
      p ∈ db.persons → p.deleted_at ≠ none → p ∈ (runOps db ops).persons := by
  intro ops
  induction ops with
  | nil => intro db p hp _; exact hp
  | cons op ops ih =>
      intro db p hp hdel
      exact ih (stepOp db op) p (stepOp_preserves_deleted db op hp hdel) hdel

/-- Witness for C8: the already-deleted person 1 survives a create and two
further delete requests. -/
theorem claim_C8_witness :
    (⟨1, "natural", true, 1, 1, some 2⟩ : Person) ∈
      (runOps deletedDB [.create (rawJur "Acme Corporation"), .delete 1, .delete 2]).persons :=
  claim_C8_soft_delete_oneway _ deletedDB _ (by decide) (by decide)

/- ### Listing lemmas -/

/-- A successfully assembled row echoes the base fields of its person. -/
lemma assembleRow_fields {db : DB} {p : Person} {x : PersonRead}
    (h : assembleRow db p = some x) :
    x.id = p.id ∧ x.type = p.type ∧ x.active = p.active ∧ x.deleted_at = p.deleted_at := by
  unfold assembleRow at h
  split at h <;>
    (rw [Option.map_eq_some'] at h
     obtain ⟨d, hd, rfl⟩ := h
     simp [assembleNatural, assembleJuridical])

/-- A successfully assembled page has one response per person, in order,
with the same id. -/
lemma assemblePage_ids {db : DB} :
    ∀ {l : List Person} {items : List PersonRead}, assemblePage db l = some items →
      items.map (fun x => x.id) = l.map (fun p => p.id) := by
  intro l
  induction l with
  | nil =>
      intro items h
      simp only [assemblePage] at h
      injection h with h1
      subst h1
      rfl
  | cons p ps ih =>
      intro items h
      unfold assemblePage at h
      split at h
      · injection h with h1
        subst h1
        rename_i x xs hx hxs
        simp [ih hxs, (assembleRow_fields hx).1]
      · exact Option.noConfusion h

/-- Every response in a successfully assembled page comes from a person of
the page, with equal base fields. -/
lemma assemblePage_mem {db : DB} :
    ∀ {l : List Person} {items : List PersonRead}, assemblePage db l = some items →
      ∀ x ∈ items, ∃ p ∈ l,
        x.id = p.id ∧ x.type = p.type ∧ x.active = p.active ∧ x.deleted_at = p.deleted_at := by
  intro l
  induction l with
  | nil =>
      intro items h
      simp only [assemblePage] at h
      injection h with h1
      subst h1
      intro x hx
      exact absurd hx (List.not_mem_nil x)
  | cons p ps ih =>
      intro items h
      unfold assemblePage at h
      split at h
      · injection h with h1
        subst h1
        rename_i x0 xs hx0 hxs
        intro x hx
        rcases List.mem_cons.1 hx with rfl | hx'
        · exact ⟨p, List.mem_cons_self p ps, assembleRow_fields hx0⟩
        · obtain ⟨q, hq, hfields⟩ := ih hxs x hx'
          exact ⟨q, List.mem_cons_of_mem p hq, hfields⟩
      · exact Option.noConfusion h

/-- A non-empty string is truthy in the Python sense. -/
lemma truthy_some {t : String} (h : t ≠ "") : truthy (some t) = true := by
  cases t with
  | mk data =>
      cases data with
      | nil => exact absurd rfl h
      | cons c cs => rfl

/-- Unpacking of the person-level WHERE predicates. -/
lemma basePasses_spec {f : PersonFilter} {p : Person} (h : basePasses f p = true) :
    p.deleted_at = none ∧
    (∀ t, f.type = some t → t ≠ "" → p.type = t) ∧
    (∀ b, f.active = some b → p.active = b) := by
  unfold basePasses at h
  simp only [Bool.and_eq_true] at h
  obtain ⟨⟨h1, h2⟩, h3⟩ := h
  refine ⟨by simpa using h1, ?_, ?_⟩
  · intro t hft hne
    rw [hft] at h2
    rw [truthy_some hne] at h2
    simp only [if_true, Option.getD_some, beq_iff_eq] at h2
    exact h2
  · intro b hfb
    rw [hfb] at h3
    simpa using h3

/-- Uniquing only drops rows: every entity it returns was a fetched row. -/
lemma dedupByIdAux_subset : ∀ (seen : List Nat) (l : List Person) (p : Person),
    p ∈ dedupByIdAux seen l → p ∈ l := by
  intro seen l
  induction l generalizing seen with
  | nil =>
      intro p hp
      simp [dedupByIdAux] at hp
  | cons a l ih =>
      intro p hp
      unfold dedupByIdAux at hp
      split at hp
      · exact List.mem_cons_of_mem a (ih seen p hp)
      · rcases List.mem_cons.1 hp with rfl | hp'
        · exact List.mem_cons_self p l
        · exact List.mem_cons_of_mem a (ih _ p hp')

/-- `Query.all()` uniquing only drops duplicate rows. -/
lemma dedupById_subset {l : List Person} {p : Person} (h : p ∈ dedupById l) : p ∈ l :=
  dedupByIdAux_subset [] l p h

/-- Every person a successful listing returns passed the person-level
WHERE predicates of the query. -/
lemma list_persons_items_pass {f : PersonFilter} {pg : Pagination} {db : DB} {res : PersonList}
    (h : list_persons f pg db = .ok res) :
    ∀ x ∈ res.items, ∃ p, basePasses f p = true ∧
      x.id = p.id ∧ x.type = p.type ∧ x.active = p.active ∧ x.deleted_at = p.deleted_at := by
  unfold list_persons at h
  split at h
  · dsimp only at h
    split at h
    · injection h with h1
      subst h1
      rename_i items hpage
      intro x hx
      obtain ⟨p, hp, hfields⟩ := assemblePage_mem hpage x hx
      have hp0 := dedupById_subset hp
      rw [List.mem_map] at hp0
      obtain ⟨row, hrow, rfl⟩ := hp0
      have hrow2 : row ∈ orderRowsById (filteredJoinedRows db f (f.name.getD "")) :=
        List.mem_of_mem_drop (List.mem_of_mem_take hrow)
      have hrow3 : row ∈ filteredJoinedRows db f (f.name.getD "") := by
        unfold orderRowsById at hrow2
        exact (List.mem_insertionSort rowLe).1 hrow2
      have hpass := (List.mem_filter.1 hrow3).2
      simp only [Bool.and_eq_true] at hpass
      exact ⟨row.1, hpass.1, hfields⟩
    · exact Except.noConfusion h
  · dsimp only at h
    split at h
    · injection h with h1
      subst h1
      rename_i items hpage
      intro x hx
      obtain ⟨p, hp, hfields⟩ := assemblePage_mem hpage x hx
      have hp2 : p ∈ orderById (db.persons.filter (basePasses f)) :=
        List.mem_of_mem_drop (List.mem_of_mem_take hp)
      have hp3 : p ∈ db.persons.filter (basePasses f) := by
        unfold orderById at hp2
        exact (List.mem_insertionSort personLe).1 hp2
      exact ⟨p, (List.mem_filter.1 hp3).2, hfields⟩
    · exact Except.noConfusion h

/- ### Claims C5, C4, C1 -/

/-- The response row of the natural person of `wonderDB` / `natOnlyDB`. -/
def wonderNatRead : PersonRead :=
  assembleNatural ⟨1, "natural", true, 1, 1, none⟩
    ⟨1, "CURP12345678901234", "RFC123456789", "Alice Wonderland", "Doe", none, none, 1,
      mkFullName "Alice Wonderland" "Doe" none⟩

/-- The response row of the juridical person of `wonderDB`. -/
def wonderJurRead : PersonRead :=
  assembleJuridical ⟨2, "juridical", true, 2, 2, none⟩
    ⟨2, "RFC987654321", "Wonderland LLC", none, 2⟩

/-- Counterexample to C5 as stated: supplying the type filter with the
empty string (`GET /persons?type=`) is falsy in Python, so the filter is
skipped and a person whose type is "natural" ≠ "" is returned. -/
theorem claim_C5_counterexample :
    list_persons ⟨some "", none, none⟩ ⟨0, 10⟩ natOnlyDB = .ok ⟨1, [wonderNatRead]⟩ ∧
    wonderNatRead.type ≠ "" := by
  constructor <;> decide

/-- Claim C5 (amended): every person a successful listing returns is
non-deleted; a non-empty type filter and any supplied active filter are
exact matches (an empty-string type filter is treated as absent). -/
theorem claim_C5_filters :
    ∀ (f : PersonFilter) (pg : Pagination) (db : DB) (res : PersonList),
      list_persons f pg db = .ok res →
      ∀ x ∈ res.items,
        x.deleted_at = none ∧
        (∀ t, f.type = some t → t ≠ "" → x.type = t) ∧
        (∀ b, f.active = some b → x.active = b) := by
  intro f pg db res h x hx
  obtain ⟨p, hpass, hid, htype, hactive, hdel⟩ := list_persons_items_pass h x hx
  obtain ⟨h1, h2, h3⟩ := basePasses_spec hpass
  exact ⟨by rw [hdel, h1], fun t ht hne => by rw [htype]; exact h2 t ht hne,
    fun b hb => by rw [hactive]; exact h3 b hb⟩

/-- Witness for C5 on a store with one live natural person. -/
theorem claim_C5_witness :
    wonderNatRead.deleted_at = none ∧
    (∀ t, (⟨some "natural", some true, none⟩ : PersonFilter).type = some t → t ≠ "" →
      wonderNatRead.type = t) ∧
    (∀ b, (⟨some "natural", some true, none⟩ : PersonFilter).active = some b →
      wonderNatRead.active = b) :=
  claim_C5_filters ⟨some "natural", some true, none⟩ ⟨0, 10⟩ natOnlyDB ⟨1, [wonderNatRead]⟩
    (by decide) wonderNatRead (by decide)

/-- Counterexample to C4 as stated: with a name filter `query.count()`
counts the (person × juridical-detail) cross-join rows, so three matching
persons yield total = 6, while `Query.all()` uniquing returns each of the
three persons once — the returned total does not equal the number of
matching persons. -/
theorem claim_C4_counterexample :
    (list_persons ⟨none, none, some "Wonderland"⟩ ⟨0, 10⟩ threeDB).toOption.map
        (fun r => (r.total, r.items.map (fun x => x.id))) = some (6, [1, 2, 3]) ∧
    (threeDB.persons.filter (specNameMatches threeDB "Wonderland")).length = 3 := by
  constructor <;> decide

/-- Claim C4 (amended): for every listing request without a name filter,
total is the number of matching persons before pagination and the items
are the window `[skip, skip+limit)` of the matching persons ordered by id
ascending. -/
theorem claim_C4_pagination :
    ∀ (f : PersonFilter) (pg : Pagination) (db : DB) (res : PersonList),
      truthy f.name = false →
      list_persons f pg db = .ok res →
      res.total = (db.persons.filter (basePasses f)).length ∧
      res.items.map (fun x => x.id) =
        (((orderById (db.persons.filter (basePasses f))).drop pg.skip).take pg.limit).map
          (fun p => p.id) ∧
      res.items.length ≤ pg.limit ∧
      List.Sorted (· ≤ ·) (res.items.map (fun x => x.id)) := by
  intro f pg db res hname h
  unfold list_persons at h
  rw [hname] at h
  simp only [Bool.false_eq_true, if_false] at h
  split at h
  · injection h with h1
    subst h1
    rename_i items hpage
    have hids := assemblePage_ids hpage
    refine ⟨rfl, hids, ?_, ?_⟩
    · have hlen : items.length =
          (((orderById (db.persons.filter (basePasses f))).drop pg.skip).take pg.limit).length := by
        have := congrArg List.length hids
        simpa using this
      rw [hlen]
      exact List.length_take_le _ _
    · have hsorted : List.Sorted personLe (orderById (db.persons.filter (basePasses f))) := by
        unfold orderById
        exact List.sorted_insertionSort personLe _
      have hsub : (((orderById (db.persons.filter (basePasses f))).drop pg.skip).take pg.limit).Sublist
          (orderById (db.persons.filter (basePasses f))) :=
        (List.take_sublist _ _).trans (List.drop_sublist _ _)
      have hsorted2 := hsorted.sublist hsub
      rw [hids]
      rw [List.Sorted, List.pairwise_map]
      exact hsorted2
  · exact Except.noConfusion h

/-- The second page (skip=10, limit=10) of the fifteen-person store. -/
def page2of15 : List PersonRead :=
  [aliceRead 11 11, aliceRead 12 12, aliceRead 13 13, aliceRead 14 14, aliceRead 15 15]

/-- Witness for C4 on the fifteen-person store: total 15, second page of
5 items, ordered. -/
theorem claim_C4_witness :
    (⟨15, page2of15⟩ : PersonList).total =
      (fifteenDB.persons.filter (basePasses ⟨none, none, none⟩)).length ∧
    (⟨15, page2of15⟩ : PersonList).items.map (fun x => x.id) =
      (((orderById (fifteenDB.persons.filter (basePasses ⟨none, none, none⟩))).drop 10).take 10).map
        (fun p => p.id) ∧
    (⟨15, page2of15⟩ : PersonList).items.length ≤ 10 ∧
    List.Sorted (· ≤ ·) ((⟨15, page2of15⟩ : PersonList).items.map (fun x => x.id)) :=
  claim_C4_pagination ⟨none, none, none⟩ ⟨10, 10⟩ fifteenDB ⟨15, page2of15⟩ rfl (by decide)

/-- Counterexample to C1 as stated: the store holds exactly one non-deleted
person whose natural name contains "Wonderland", yet the name-filtered
listing returns no items and total 0, because the unjoined reference to
juridical details cross-joins an empty table. -/
theorem claim_C1_counterexample :
    list_persons ⟨none, none, some "Wonderland"⟩ ⟨0, 10⟩ natOnlyDB = .ok ⟨0, []⟩ ∧
    natOnlyDB.persons.filter (specNameMatches natOnlyDB "Wonderland") =
      [⟨1, "natural", true, 1, 1, none⟩] := by
  constructor <;> decide

/-- Claim C1 (amended): the name filter's predicate runs over the cross
join with the juridical details table: with no juridical detail row the
result is empty regardless of matching natural persons, while in the
two-person Wonderland scenario (one natural person whose name contains the
string, one juridical person whose legal_name contains it) the listing
does return total = 2 with both persons. -/
theorem claim_C1_name_filter :
    (∀ (f : PersonFilter) (pg : Pagination) (db : DB),
      truthy f.name = true → db.juridical_person_details = [] →
      list_persons f pg db = .ok ⟨0, []⟩) ∧
    list_persons ⟨none, none, some "Wonderland"⟩ ⟨0, 10⟩ wonderDB =
      .ok ⟨2, [wonderNatRead, wonderJurRead]⟩ := by
  constructor
  · intro f pg db hname hjur
    unfold list_persons
    rw [if_pos hname]
    have hrows : filteredJoinedRows db f (f.name.getD "") = [] := by
      unfold filteredJoinedRows joinedRows
      rw [hjur]
      simp
    rw [hrows]
    simp [orderRowsById, dedupById, dedupByIdAux, assemblePage]
  · decide

/-- Witness for C1: a name-filtered listing over a store with a matching
natural person and an empty juridical table. -/
theorem claim_C1_witness :
    list_persons ⟨none, none, some "Wonderland"⟩ ⟨7, 10⟩ natOnlyDB = .ok ⟨0, []⟩ :=
  claim_C1_name_filter.1 ⟨none, none, some "Wonderland"⟩ ⟨7, 10⟩ natOnlyDB rfl rfl

/- ### Claims C6 and C7 -/

/-- `find?` skips a prefix on which the predicate is false. -/
lemma find?_append_right {α : Type} (p : α → Bool) (l₁ l₂ : List α)
    (h : ∀ x ∈ l₁, p x = false) : (l₁ ++ l₂).find? p = l₂.find? p := by
  induction l₁ with
  | nil => rfl
  | cons a l ih =>
      rw [List.cons_append, List.find?_cons]
      rw [h a (List.mem_cons_self a l)]
      exact ih fun x hx => h x (List.mem_cons_of_mem a hx)

/-- The derived full name always contains the separating space, hence is
never empty. -/
lemma mkFullName_ne_empty (n f : String) (s : Option String) : mkFullName n f s ≠ "" := by
  unfold mkFullName
  intro h
  have hd := congrArg String.data h
  simp at hd

/-- The shape of a validated create payload: the type literal determines
the detail variant. -/
lemma validateCreate_shape {r : RawCreate} {inp : PersonCreate}
    (h : validateCreate r = some inp) :
    (inp.type = "natural" ∧ ∃ v, inp.details = .natural v) ∨
    (inp.type = "juridical" ∧ ∃ v, inp.details = .juridical v) := by
  unfold validateCreate at h
  split at h <;> split at h <;> simp_all [Option.map_eq_some']
  · obtain ⟨v, hv, rfl⟩ := h
    exact Or.inl ⟨rfl, _, rfl⟩
  · obtain ⟨v, hv, rfl⟩ := h
    exact Or.inr ⟨rfl, _, rfl⟩

/-- Claim C6: every validated create request persists the base row and the
matching detail row and returns (201) the assembled person echoing the
input, with the store-computed non-empty `full_name` for natural persons.
The freshness hypotheses say no stale detail row already uses the id the
sequence will assign. -/
theorem claim_C6_create_success :
    ∀ (r : RawCreate) (inp : PersonCreate) (db : DB),
      validateCreate r = some inp →
      (∀ d ∈ db.natural_person_details, d.person_id ≠ db.nextId) →
      (∀ d ∈ db.juridical_person_details, d.person_id ≠ db.nextId) →
      ∃ resp db', create_person inp db = (.ok resp, db') ∧
        resp.id = db.nextId ∧ resp.type = inp.type ∧ resp.active = inp.active ∧
        resp.deleted_at = none ∧
        db'.persons = db.persons ++ [⟨db.nextId, inp.type, inp.active, db.now, db.now, none⟩] ∧
        (match inp.details with
         | .natural d =>
             db'.natural_person_details = db.natural_person_details ++
               [⟨db.nextId, d.curp, d.rfc, d.name, d.first_last_name, d.second_last_name,
                 d.date_of_birth, db.now, mkFullName d.name d.first_last_name d.second_last_name⟩] ∧
             resp.details = .natural ⟨db.nextId, d.curp, d.rfc, d.name, d.first_last_name,
               d.second_last_name, d.date_of_birth, db.now,
               mkFullName d.name d.first_last_name d.second_last_name⟩ ∧
             mkFullName d.name d.first_last_name d.second_last_name ≠ ""
         | .juridical d =>
             db'.juridical_person_details = db.juridical_person_details ++
               [⟨db.nextId, d.rfc, d.legal_name, d.incorporation_date, db.now⟩] ∧
             resp.details = .juridical ⟨db.nextId, d.rfc, d.legal_name, d.incorporation_date, db.now⟩) := by
  intro r inp db hv hfreshN hfreshJ
  obtain ⟨ty, act, det⟩ := inp
  rcases validateCreate_shape hv with ⟨hty, v, hdet⟩ | ⟨hty, v, hdet⟩ <;>
    simp only at hty hdet <;> subst hty <;> subst hdet
  · have hfind : findNaturalDetails
        { db with
            persons := db.persons ++ [⟨db.nextId, "natural", act, db.now, db.now, none⟩],
            natural_person_details := db.natural_person_details ++
              [⟨db.nextId, v.curp, v.rfc, v.name, v.first_last_name, v.second_last_name,
                v.date_of_birth, db.now, mkFullName v.name v.first_last_name v.second_last_name⟩],
            nextId := db.nextId + 1 }
        db.nextId = some ⟨db.nextId, v.curp, v.rfc, v.name, v.first_last_name,
          v.second_last_name, v.date_of_birth, db.now,
          mkFullName v.name v.first_last_name v.second_last_name⟩ := by
      unfold findNaturalDetails
      dsimp only
      rw [find?_append_right _ _ _ (fun x hx => by simpa using hfreshN x hx)]
      simp
    unfold create_person
    rw [if_pos (show (("natural" : String) == "natural") = true from rfl)]
    dsimp only
    rw [hfind]
    exact ⟨_, _, rfl, rfl, rfl, rfl, rfl, rfl, rfl, rfl, mkFullName_ne_empty _ _ _⟩
  · have hfind : findJuridicalDetails
        { db with
            persons := db.persons ++ [⟨db.nextId, "juridical", act, db.now, db.now, none⟩],
            juridical_person_details := db.juridical_person_details ++
              [⟨db.nextId, v.rfc, v.legal_name, v.incorporation_date, db.now⟩],
            nextId := db.nextId + 1 }
        db.nextId = some ⟨db.nextId, v.rfc, v.legal_name, v.incorporation_date, db.now⟩ := by
      unfold findJuridicalDetails
      dsimp only
      rw [find?_append_right _ _ _ (fun x hx => by simpa using hfreshJ x hx)]
      simp
    unfold create_person
    rw [if_neg (show ¬(("juridical" : String) == "natural") = true by decide)]
    rw [if_pos (show (("juridical" : String) == "juridical") = true from rfl)]
    dsimp only
    rw [hfind]
    exact ⟨_, _, rfl, rfl, rfl, rfl, rfl, rfl, rfl, rfl⟩

/-- Witness for C6 on the empty store with a juridical payload. -/
theorem claim_C6_witness :
    ∃ resp db', create_person ⟨"juridical", true, .juridical ⟨"RFC987654321", "Acme Corporation", none⟩⟩ DB.empty = (.ok resp, db') ∧
      resp.id = 1 ∧ resp.type = "juridical" ∧ resp.active = true ∧
      resp.deleted_at = none ∧
      db'.persons = [⟨1, "juridical", true, 1, 1, none⟩] ∧
      (match (CreateDetails.juridical ⟨"RFC987654321", "Acme Corporation", none⟩) with
       | .natural d =>
           db'.natural_person_details = DB.empty.natural_person_details ++
             [⟨1, d.curp, d.rfc, d.name, d.first_last_name, d.second_last_name,
               d.date_of_birth, 1, mkFullName d.name d.first_last_name d.second_last_name⟩] ∧
           resp.details = .natural ⟨1, d.curp, d.rfc, d.name, d.first_last_name,
             d.second_last_name, d.date_of_birth, 1,
             mkFullName d.name d.first_last_name d.second_last_name⟩ ∧
           mkFullName d.name d.first_last_name d.second_last_name ≠ ""
       | .juridical d =>
           db'.juridical_person_details = DB.empty.juridical_person_details ++
             [⟨1, d.rfc, d.legal_name, d.incorporation_date, 1⟩] ∧
           resp.details = .juridical ⟨1, d.rfc, d.legal_name, d.incorporation_date, 1⟩) :=
  claim_C6_create_success (rawJur "Acme Corporation")
    ⟨"juridical", true, .juridical ⟨"RFC987654321", "Acme Corporation", none⟩⟩ DB.empty
    (by decide) (by decide) (by decide)

/-- The boundary violations of natural-person detail fields (measured, as
the schema does, after whitespace stripping). -/
def violatesNatural (d : RawNaturalDetails) : Prop :=
  (pyStrip d.curp).length ≠ 18 ∨
  (pyStrip d.rfc).length < 12 ∨ 13 < (pyStrip d.rfc).length ∨
  100 < (pyStrip d.name).length ∨ 100 < (pyStrip d.first_last_name).length ∨
  (∃ s, d.second_last_name = some s ∧ 100 < (pyStrip s).length)

/-- The boundary violations of juridical-person detail fields. -/
def violatesJuridical (d : RawJuridicalDetails) : Prop :=
  (pyStrip d.rfc).length < 12 ∨ 13 < (pyStrip d.rfc).length ∨
  200 < (pyStrip d.legal_name).length

/-- The boundary violations of a create request body. -/
def violatesCreate (r : RawCreate) : Prop :=
  match r.details with
  | .natural d => violatesNatural d
  | .juridical d => violatesJuridical d

/-- The boundary violations of the pagination query params. -/
def violatesPagination (r : RawPagination) : Prop :=
  (∃ k, r.skip = some k ∧ k < 0) ∨ (∃ l, r.limit = some l ∧ (l < 1 ∨ 100 < l))

/-- A natural-details body with a boundary violation is rejected. -/
lemma validateNaturalDetails_none {d : RawNaturalDetails} (h : violatesNatural d) :
    validateNaturalDetails d = none := by
  unfold validateNaturalDetails
  dsimp only
  split
  · rename_i hc
    exfalso
    simp only [Bool.and_eq_true, beq_iff_eq, decide_eq_true_eq] at hc
    obtain ⟨⟨⟨⟨h1, h2⟩, h3⟩, h4⟩, h5⟩ := hc
    rcases h with h | h | h | h | h | ⟨s, hs, hlen⟩
    · exact h h1
    · omega
    · omega
    · omega
    · omega
    · rw [hs] at h5
      simp only [Option.map_some', decide_eq_true_eq] at h5
      omega
  · rfl

/-- A juridical-details body with a boundary violation is rejected. -/
lemma validateJuridicalDetails_none {d : RawJuridicalDetails} (h : violatesJuridical d) :
    validateJuridicalDetails d = none := by
  unfold validateJuridicalDetails
  dsimp only
  split
  · rename_i hc
    exfalso
    simp only [Bool.and_eq_true, decide_eq_true_eq] at hc
    obtain ⟨⟨h1, h2⟩, h3⟩ := hc
    rcases h with h | h | h <;> omega
  · rfl

/-- A create body with a boundary violation is rejected by the schema
union. -/
lemma validateCreate_none {r : RawCreate} (h : violatesCreate r) :
    validateCreate r = none := by
  unfold violatesCreate at h
  unfold validateCreate
  cases hd : r.details with
  | natural d =>
      rw [hd] at h
      dsimp only at h ⊢
      split
      · rw [validateNaturalDetails_none h]
        rfl
      · rfl
  | juridical d =>
      rw [hd] at h
      dsimp only at h ⊢
      split
      · rw [validateJuridicalDetails_none h]
        rfl
      · rfl

/-- Out-of-range pagination params are rejected. -/
lemma validatePagination_none {r : RawPagination} (h : violatesPagination r) :
    validatePagination r = none := by
  unfold validatePagination
  dsimp only
  split
  · rename_i hc
    exfalso
    simp only [Bool.and_eq_true, decide_eq_true_eq] at hc
    obtain ⟨h1, h2, h3⟩ := hc
    rcases h with ⟨k, hk, hneg⟩ | ⟨l, hl, hbad⟩
    · rw [hk] at h1
      simp only [Option.getD_some] at h1
      omega
    · rw [hl] at h2 h3
      simp only [Option.getD_some] at h2 h3
      omega
  · rfl

/-- Claim C7: a create request violating a declared field constraint, or a
listing request with out-of-range pagination, is rejected with a client
error (422) before any persistence attempt: the store is untouched. -/
theorem claim_C7_validation :
    (∀ (r : RawCreate) (db : DB), violatesCreate r →
      handleCreate r db = (.error ⟨422, "Unprocessable Entity"⟩, db)) ∧
    (∀ (f : PersonFilter) (r : RawPagination) (db : DB), violatesPagination r →
      handleList f r db = .error ⟨422, "Unprocessable Entity"⟩) := by
  constructor
  · intro r db h
    unfold handleCreate
    rw [validateCreate_none h]
  · intro f r db h
    unfold handleList
    rw [validatePagination_none h]

/-- Witness for C7: a 17-character curp and a negative skip. -/
theorem claim_C7_witness :
    handleCreate ⟨"natural", some true, .natural ⟨"CURP1234567890123", "RFC123456789", "X", "Y", none, none⟩⟩ DB.empty =
      (.error ⟨422, "Unprocessable Entity"⟩, DB.empty) ∧
    handleList ⟨none, none, none⟩ ⟨some (-1), none⟩ DB.empty =
      .error ⟨422, "Unprocessable Entity"⟩ :=
  ⟨claim_C7_validation.1 _ DB.empty (Or.inl (by decide)),
   claim_C7_validation.2 ⟨none, none, none⟩ ⟨some (-1), none⟩ DB.empty
     (Or.inl ⟨-1, rfl, by decide⟩)⟩

end Holocron
